import Mathlib

/-!
Shallow embedding of the Agent-clipboard repository core.

Embedded source files:
* `src/clipboard.py` — `ClipboardState`, `ToolResultStore`, the extraction
  helpers (`_get_text_content`, `_extract_by_pattern`, `_extract_by_lines`,
  `_extract_by_json_path`) and `execute_copy`;
* `src/template.py` — `render_template`, `execute_template_invoke`;
* `src/agent.py` — `ClipboardAgent._execute_tool_call`.

Python's JSON-like values are modelled by the inductive `Value`; Python
strings by Lean `String` (the embedding models the ASCII fragment of
Python's `str.strip`, `str.isdigit` and the `\w` character class, which is
all the repository's data ever exercises).  Raisable Python functions
return `Except PyErr`; functions that mutate `ClipboardState` in place are
modelled by explicit state passing, and a function that can both raise and
have already mutated state returns a pair of the `Except` outcome and the
final state.  External collaborators (the `re` regex engine, the
`execute_tool` dispatcher that performs file IO) are taken as oracle
parameters, since their behaviour is outside the embedded code.
-/

set_option maxHeartbeats 1000000

namespace AgentClipboard

/-- JSON-like Python values handled by the clipboard core. -/
inductive Value where
  | none
  | bool (b : Bool)
  | int (n : Int)
  | str (s : String)
  | list (xs : List Value)
  | dict (kvs : List (String × Value))

/-- The apostrophe character (used in Python error messages and `repr`). -/
def squo : Char := Char.ofNat 39

/-- Escape one character the way Python `repr` does inside a quoted string
(`q` is the chosen quote character).  Non-printable `\xNN` escapes are not
modelled; the repository's strings are printable. -/
def pyEscapeChar (q : Char) (c : Char) : String :=
  if c = '\\' then "\\\\"
  else if c = q then "\\" ++ String.mk [q]
  else if c = '\n' then "\\n"
  else if c = '\t' then "\\t"
  else if c = '\x0d' then "\\r"
  else String.mk [c]

/-- Python `repr` of a string: single quotes by default, double quotes when
the string contains a single quote but no double quote. -/
def pyQuote (s : String) : String :=
  let q := if s.data.contains squo ∧ ¬ s.data.contains '"' then '"' else squo
  String.mk [q] ++ String.join (s.data.map (pyEscapeChar q)) ++ String.mk [q]

mutual

/-- Python `repr` of a `Value`. -/
def pyRepr : Value → String
  | Value.none => "None"
  | Value.bool true => "True"
  | Value.bool false => "False"
  | Value.int n => toString n
  | Value.str s => pyQuote s
  | Value.list xs => "[" ++ String.intercalate ", " (pyReprList xs) ++ "]"
  | Value.dict kvs => "\x7b" ++ String.intercalate ", " (pyReprDict kvs) ++ "\x7d"

/-- `repr` of each element of a Python list. -/
def pyReprList : List Value → List String
  | [] => []
  | v :: vs => pyRepr v :: pyReprList vs

/-- `repr` of each `key: value` item of a Python dict (string keys). -/
def pyReprDict : List (String × Value) → List String
  | [] => []
  | (k, v) :: kvs => (pyQuote k ++ ": " ++ pyRepr v) :: pyReprDict kvs

end

/-- Python `str` of a `Value`: identity on strings, `repr` otherwise
(which agrees with `str` on numbers, booleans, `None` and containers). -/
def pyStr : Value → String
  | Value.str s => s
  | v => pyRepr v

/-- Python `len(value) if isinstance(value, str) else len(str(value))`,
the byte-size bookkeeping used by `ClipboardState.set` and `execute_copy`. -/
def pyLen (v : Value) : Nat :=
  match v with
  | Value.str s => s.length
  | w => (pyStr w).length

/-- The Python exceptions raised by the embedded code. -/
inductive PyErr where
  | keyError (msg : String)
  | indexError (msg : String)
  | valueError (msg : String)
  | typeError (msg : String)
deriving DecidableEq

/-! ### Association lists modelling Python dicts

Python dict keys are unique and insertion-ordered; the dicts of the
repository are modelled as association lists built exclusively through the
operations below, which keep keys unique and append new keys at the end,
matching dict insertion order. -/

/-- Lookup (`d[k]` / `d.get(k)`), first binding wins. -/
def alistGet {α : Type} : List (String × α) → String → Option α
  | [], _ => Option.none
  | (k, v) :: rest, key => if k = key then some v else alistGet rest key

/-- `d[k] = v`: update the binding in place, or append it at the end. -/
def alistSet {α : Type} : List (String × α) → String → α → List (String × α)
  | [], key, v => [(key, v)]
  | (k, w) :: rest, key, v =>
    if k = key then (key, v) :: rest else (k, w) :: alistSet rest key v

/-- `d.pop(k, None)`: drop the binding for `k` (keys are unique in every
dict-derived association list, so dropping every binding for `k` coincides
with Python's removal of the single binding). -/
def alistPop {α : Type} (l : List (String × α)) (key : String) : List (String × α) :=
  l.filter fun p => p.1 ≠ key

/-- `list(d.keys())`. -/
def alistKeys {α : Type} (l : List (String × α)) : List String :=
  l.map Prod.fst

/-! ### `ClipboardState` (src/clipboard.py lines 10–97) -/

/-- The three dicts of `ClipboardState.__init__`. -/
structure ClipboardState where
  slots : List (String × Value)
  bytesStored : List (String × Nat)
  usageCount : List (String × Nat)

/-- A fresh `ClipboardState()`. -/
def ClipboardState.init : ClipboardState := ⟨[], [], []⟩

/-- `ClipboardState.set`: store the value, record its byte size, reset the
usage count to 0. -/
def ClipboardState.set (c : ClipboardState) (slot : String) (v : Value) : ClipboardState :=
  { slots := alistSet c.slots slot v
    bytesStored := alistSet c.bytesStored slot (pyLen v)
    usageCount := alistSet c.usageCount slot 0 }

/-- `ClipboardState.get`: raises `KeyError` listing the known slots when the
slot is absent. -/
def ClipboardState.get (c : ClipboardState) (slot : String) : Except PyErr Value :=
  match alistGet c.slots slot with
  | some v => Except.ok v
  | Option.none =>
    Except.error (PyErr.keyError
      ("Clipboard slot \x27" ++ slot ++ "\x27 not found. Available: " ++
        pyRepr (Value.list ((alistKeys c.slots).map Value.str))))

/-- `ClipboardState.has`. -/
def ClipboardState.has (c : ClipboardState) (slot : String) : Bool :=
  (alistGet c.slots slot).isSome

/-- `ClipboardState.clear`: `if slot:` is Python truthiness, so both `None`
and the empty string clear every slot; only `_slots` is touched, the byte
and usage bookkeeping dicts are left as they are. -/
def ClipboardState.clear (c : ClipboardState) (slot : Option String) : ClipboardState :=
  match slot with
  | some s =>
    if s.data.isEmpty then { c with slots := [] }
    else { c with slots := alistPop c.slots s }
  | Option.none => { c with slots := [] }

/-- `ClipboardState.list_slots`. -/
def ClipboardState.listSlots (c : ClipboardState) : List String :=
  alistKeys c.slots

/-- `ClipboardState.record_usage`: increments the counter, a silent no-op
when the slot has no usage entry. -/
def ClipboardState.recordUsage (c : ClipboardState) (slot : String) : ClipboardState :=
  match alistGet c.usageCount slot with
  | some n => { c with usageCount := alistSet c.usageCount slot (n + 1) }
  | Option.none => c

/-- The dict returned by `ClipboardState.get_token_savings_estimate`. -/
structure Savings where
  bytes_stored : Nat
  bytes_substituted : Nat
  estimated_tokens_saved : Nat
  reference_overhead_tokens : Nat
  net_tokens_saved : Int
  slots_usage : List (String × Nat)
  slots_bytes : List (String × Nat)

/-- `ClipboardState.get_token_savings_estimate` (src/clipboard.py 56–94). -/
def ClipboardState.getTokenSavingsEstimate (c : ClipboardState) : Savings :=
  let totalBytesStored := (c.bytesStored.map Prod.snd).sum
  let bytesSubstituted :=
    (c.usageCount.map fun p => ((alistGet c.bytesStored p.1).getD 0) * p.2).sum
  let charsPerToken := 4
  let estimatedTokensSaved := bytesSubstituted / charsPerToken
  let referenceOverhead :=
    (c.usageCount.map fun p => (4 + p.1.length) * p.2).sum
  let referenceTokens := referenceOverhead / charsPerToken
  { bytes_stored := totalBytesStored
    bytes_substituted := bytesSubstituted
    estimated_tokens_saved := estimatedTokensSaved
    reference_overhead_tokens := referenceTokens
    net_tokens_saved := (estimatedTokensSaved : Int) - (referenceTokens : Int)
    slots_usage := c.usageCount
    slots_bytes := c.bytesStored }

/-- Well-formedness of a clipboard reachable through the Python API: every
slot that holds a value also has a usage counter (`set` creates all three
entries together and `clear` removes only the value). -/
def ClipboardState.WF (c : ClipboardState) : Prop :=
  ∀ k ∈ alistKeys c.slots, (alistGet c.usageCount k).isSome = true

instance (c : ClipboardState) : Decidable c.WF := by
  unfold ClipboardState.WF
  exact List.decidableBAll _ _

/-! ### `ToolResultStore` (src/clipboard.py lines 100–168) -/

/-- The entry dict `{"tool": tool_name, "result": result}` built by
`ToolResultStore.store`. -/
structure Entry where
  tool : String
  result : Value

/-- `ToolResultStore.__init__`: results per tool name plus the global
"last" pointer. -/
structure ToolResultStore where
  byTool : List (String × List Entry)
  last : Option Entry

/-- A fresh `ToolResultStore()`. -/
def ToolResultStore.init : ToolResultStore := ⟨[], Option.none⟩

/-- `ToolResultStore.store`: appends the entry under its tool name and
moves the "last" pointer.  The Python function is annotated `-> None` and
has no return statement, so its return value — the second component — is
`None` (the new ordinal is computed only for a log line). -/
def ToolResultStore.store (st : ToolResultStore) (toolName : String) (result : Value) :
    ToolResultStore × Value :=
  let entry : Entry := ⟨toolName, result⟩
  let old := (alistGet st.byTool toolName).getD []
  ({ byTool := alistSet st.byTool toolName (old ++ [entry]), last := some entry },
   Value.none)

/-- Python `str.isdigit` on the ASCII fragment: non-empty and all decimal
digits. -/
def pyIsDigitStr (s : String) : Bool :=
  (!s.data.isEmpty) && s.data.all Char.isDigit

/-- Python `int(...)` on a digit string. -/
def parseDigits (s : String) : Nat :=
  s.data.foldl (fun n ch => n * 10 + (ch.toNat - 48)) 0

/-- Python `s.rsplit(c, 1)`: split at the LAST occurrence of `c`, `none`
when `c` does not occur. -/
def rsplit1 (c : Char) : List Char → Option (List Char × List Char)
  | [] => Option.none
  | a :: rest =>
    match rsplit1 c rest with
    | some (pre, post) => some (a :: pre, post)
    | Option.none => if a = c then some ([], rest) else Option.none

/-- Python list indexing `l[idx]` with negative-index wrap-around,
`none` standing for `IndexError`. -/
def pyListGet (l : List Entry) (idx : Int) : Option Entry :=
  if 0 ≤ idx then l.get? idx.toNat
  else if -(l.length : Int) ≤ idx then l.get? (l.length - (-idx).toNat)
  else Option.none

/-- The tail of `ToolResultStore.get` after reference parsing: look the
tool name up in `_by_tool` (KeyError listing the available names when
missing), then index into its result list (IndexError is caught and
re-raised as KeyError). -/
def ToolResultStore.lookupIdx (st : ToolResultStore) (toolName : String) (idx : Int) :
    Except PyErr Entry :=
  match alistGet st.byTool toolName with
  | Option.none =>
    Except.error (PyErr.keyError
      ("No results for tool \x27" ++ toolName ++ "\x27. Available: " ++
        pyRepr (Value.list ((alistKeys st.byTool).map Value.str))))
  | some results =>
    match pyListGet results idx with
    | some e => Except.ok e
    | Option.none =>
      Except.error (PyErr.keyError
        ("Index " ++ toString idx ++ " out of range for \x27" ++ toolName ++
          "\x27 (has " ++ toString results.length ++ " results)"))

/-- `ToolResultStore.get` (src/clipboard.py 125–157): `"last"`, then the
`tool:index` form parsed at the rightmost colon (a non-digit suffix after a
colon is `Invalid index`), then the bare tool name meaning index `-1`. -/
def ToolResultStore.get (st : ToolResultStore) (source : String) : Except PyErr Entry :=
  if source = "last" then
    match st.last with
    | some e => Except.ok e
    | Option.none => Except.error (PyErr.keyError "No tool results stored yet")
  else
    match rsplit1 ':' source.data with
    | some (pre, post) =>
      if pyIsDigitStr (String.mk post) then
        st.lookupIdx (String.mk pre) (Int.ofNat (parseDigits (String.mk post)))
      else
        Except.error (PyErr.keyError ("Invalid index in source \x27" ++ source ++ "\x27"))
    | Option.none => st.lookupIdx source (-1)

/-- Run a sequence of `store` calls (discarding the `None` return values),
the shape every reachable `ToolResultStore` has. -/
def runStores (st : ToolResultStore) (ops : List (String × Value)) : ToolResultStore :=
  ops.foldl (fun s p => (s.store p.1 p.2).1) st

/-- The entries that a sequence of `store` calls appends under one tool
name, in append order. -/
def entriesFor (toolName : String) (ops : List (String × Value)) : List Entry :=
  (ops.filter fun p => p.1 = toolName).map fun p => ⟨p.1, p.2⟩

/-! ### Template rendering (src/template.py) -/

/-- The left brace character (written by code point to keep brace
characters out of string literals). -/
def lbrace : Char := Char.ofNat 123

/-- The right brace character. -/
def rbrace : Char := Char.ofNat 125

/-- The `\w` character class of `SLOT_PATTERN` (ASCII fragment). -/
def isWordChar (ch : Char) : Bool :=
  ch.isAlpha || ch.isDigit || ch = '_'

/-- Match the regex `SLOT_PATTERN` = `\x7b\x7b(\w+)\x7d\x7d` at the head of
the character list: two left braces, one or more word characters (greedy,
as in the regex — `\w` cannot match a brace, so no backtracking arises),
two right braces.  Returns the captured identifier and the characters
after the match. -/
def matchPH (cs : List Char) : Option (String × List Char) :=
  match cs with
  | c1 :: c2 :: rest =>
    if c1 = lbrace ∧ c2 = lbrace then
      let w := rest.takeWhile isWordChar
      if w.isEmpty then Option.none
      else
        match rest.drop w.length with
        | d1 :: d2 :: rest2 =>
          if d1 = rbrace ∧ d2 = rbrace then some (String.mk w, rest2) else Option.none
        | _ => Option.none
    else Option.none
  | _ => Option.none

/-- Python `str.isspace` characters removed by `str.strip` (ASCII
fragment). -/
def isPySpace (ch : Char) : Bool :=
  ch = ' ' || ch = '\t' || ch = '\n' || ch = '\x0d' || ch = '\x0b' || ch = '\x0c'

/-- Python `template.strip()`. -/
def pyStrip (s : String) : String :=
  String.mk (((s.data.dropWhile isPySpace).reverse.dropWhile isPySpace).reverse)

/-- `SLOT_PATTERN.fullmatch(...)`: the whole string is one placeholder;
returns the captured slot name. -/
def fullPlaceholder (s : String) : Option String :=
  match matchPH s.data with
  | some (slotName, []) => some slotName
  | _ => Option.none

/-- The scan of `SLOT_PATTERN.sub(replace_slot, template)` threading the
clipboard state: at each position, replace a placeholder match with
`str(value)` after `clipboard.get` + `clipboard.record_usage` (a `get`
failure aborts the whole substitution, keeping the usage already
recorded), otherwise keep the character.  The extra `fuel` argument makes
the recursion structural (the scanned list is not a structural subterm
after a match); every step consumes at least one character, so the
wrapper's `cs.length` fuel is never exhausted. -/
def interpGoF : Nat → ClipboardState → List Char →
    Except PyErr (List Char) × ClipboardState
  | 0, c, _ => (Except.ok [], c)
  | fuel + 1, c, cs =>
    match matchPH cs with
    | some (slotName, rest) =>
      match c.get slotName with
      | Except.error e => (Except.error e, c)
      | Except.ok v =>
        let c2 := c.recordUsage slotName
        match interpGoF fuel c2 rest with
        | (Except.error e, c3) => (Except.error e, c3)
        | (Except.ok out, c3) => (Except.ok ((pyStr v).data ++ out), c3)
    | Option.none =>
      match cs with
      | [] => (Except.ok [], c)
      | ch :: rest =>
        match interpGoF fuel c rest with
        | (Except.error e, c3) => (Except.error e, c3)
        | (Except.ok out, c3) => (Except.ok (ch :: out), c3)

/-- `SLOT_PATTERN.sub(replace_slot, template)` on a whole string. -/
def interpolate (c : ClipboardState) (s : String) : Except PyErr String × ClipboardState :=
  match interpGoF s.data.length c s.data with
  | (Except.error e, c2) => (Except.error e, c2)
  | (Except.ok out, c2) => (Except.ok (String.mk out), c2)

/-- Modelled from the spec wording, for the refinement comparison of
string interpolation: "scan the string left to right for every
placeholder occurrence and replace each with the clipboard value coerced
to its textual form, leaving all non-placeholder text untouched".  A pure
function of the slot-name-to-value map, with the same fuel convention as
`interpGoF`. -/
def interpSpecF (f : String → Option Value) : Nat → List Char → List Char
  | 0, _ => []
  | fuel + 1, cs =>
    match matchPH cs with
    | some (slotName, rest) =>
      (pyStr ((f slotName).getD Value.none)).data ++ interpSpecF f fuel rest
    | Option.none =>
      match cs with
      | [] => []
      | ch :: rest => ch :: interpSpecF f fuel rest

/-- `interpSpecF` on a whole string. -/
def interpSpec (f : String → Option Value) (s : String) : String :=
  String.mk (interpSpecF f s.data.length s.data)

/-- Number of placeholder occurrences of one slot name found by the
left-to-right scan. -/
def occCountF (slotName : String) : Nat → List Char → Nat
  | 0, _ => 0
  | fuel + 1, cs =>
    match matchPH cs with
    | some (slotName2, rest) =>
      (if slotName2 = slotName then 1 else 0) + occCountF slotName fuel rest
    | Option.none =>
      match cs with
      | [] => 0
      | _ :: rest => occCountF slotName fuel rest

/-- `occCountF` on a whole string. -/
def occCount (slotName : String) (s : String) : Nat :=
  occCountF slotName s.data.length s.data

/-- All slot names referenced by placeholders in the scan order. -/
def phIdsF : Nat → List Char → List String
  | 0, _ => []
  | fuel + 1, cs =>
    match matchPH cs with
    | some (slotName, rest) => slotName :: phIdsF fuel rest
    | Option.none =>
      match cs with
      | [] => []
      | _ :: rest => phIdsF fuel rest

/-- `phIdsF` on a whole string. -/
def phIds (s : String) : List String :=
  phIdsF s.data.length s.data

mutual

/-- `render_template` (src/template.py 43–78): a full-placeholder string
(after `strip`) is substituted with the clipboard value itself, type
intact; any other string goes through `SLOT_PATTERN.sub` interpolation;
mappings and sequences are rendered element-wise in order; scalars are
returned as they are.  The clipboard is mutated only through
`record_usage`, threaded here explicitly; a `KeyError` from
`clipboard.get` aborts the render, keeping mutations already made. -/
def render : Value → ClipboardState → Except PyErr Value × ClipboardState
  | Value.str s, c =>
    match fullPlaceholder (pyStrip s) with
    | some slotName =>
      match c.get slotName with
      | Except.error e => (Except.error e, c)
      | Except.ok v => (Except.ok v, c.recordUsage slotName)
    | Option.none =>
      match interpolate c s with
      | (Except.error e, c2) => (Except.error e, c2)
      | (Except.ok out, c2) => (Except.ok (Value.str out), c2)
  | Value.dict kvs, c =>
    match renderDict kvs c with
    | (Except.error e, c2) => (Except.error e, c2)
    | (Except.ok kvs2, c2) => (Except.ok (Value.dict kvs2), c2)
  | Value.list xs, c =>
    match renderList xs c with
    | (Except.error e, c2) => (Except.error e, c2)
    | (Except.ok ys, c2) => (Except.ok (Value.list ys), c2)
  | v, c => (Except.ok v, c)

/-- The list comprehension of `render_template`, left to right. -/
def renderList : List Value → ClipboardState → Except PyErr (List Value) × ClipboardState
  | [], c => (Except.ok [], c)
  | x :: xs, c =>
    match render x c with
    | (Except.error e, c2) => (Except.error e, c2)
    | (Except.ok y, c2) =>
      match renderList xs c2 with
      | (Except.error e, c3) => (Except.error e, c3)
      | (Except.ok ys, c3) => (Except.ok (y :: ys), c3)

/-- The dict comprehension of `render_template`: values rendered, keys and
key order preserved. -/
def renderDict : List (String × Value) → ClipboardState →
    Except PyErr (List (String × Value)) × ClipboardState
  | [], c => (Except.ok [], c)
  | (k, x) :: kvs, c =>
    match render x c with
    | (Except.error e, c2) => (Except.error e, c2)
    | (Except.ok y, c2) =>
      match renderDict kvs c2 with
      | (Except.error e, c3) => (Except.error e, c3)
      | (Except.ok kvs2, c3) => (Except.ok ((k, y) :: kvs2), c3)

end

/-- `execute_template_invoke` (src/template.py 81–115): read
`template["tool"]` and `template["parameters"]`, render the parameters,
dispatch to the external executor, and wrap the result.  The executor is
an oracle parameter; its failure propagates while the clipboard mutations
made by rendering persist.  (Python is dynamically typed; an absent key is
the usual `KeyError`, and a non-mapping template or non-string tool name
is modelled as the `TypeError` Python would raise downstream.) -/
def executeTemplateInvoke (execT : String → Value → Except PyErr Value)
    (template : Value) (c : ClipboardState) : Except PyErr Value × ClipboardState :=
  match template with
  | Value.dict kvs =>
    match alistGet kvs "tool" with
    | Option.none => (Except.error (PyErr.keyError "\x27tool\x27"), c)
    | some (Value.str toolName) =>
      match alistGet kvs "parameters" with
      | Option.none => (Except.error (PyErr.keyError "\x27parameters\x27"), c)
      | some rawParams =>
        match render rawParams c with
        | (Except.error e, c2) => (Except.error e, c2)
        | (Except.ok rendered, c2) =>
          match execT toolName rendered with
          | Except.error e => (Except.error e, c2)
          | Except.ok result =>
            (Except.ok (Value.dict
              [("tool_executed", Value.str toolName),
               ("substitutions_applied", Value.bool true),
               ("result", result)]), c2)
    | some _ => (Except.error (PyErr.typeError "tool name is not a string"), c)
  | _ => (Except.error (PyErr.typeError "template is not a mapping"), c)

/-! ### Extraction helpers and `execute_copy` (src/clipboard.py 171–303) -/

/-- Python membership of a string in a list (`"content" in result` when
`result` is a list): element-wise equality against that string. -/
def containsStr (xs : List Value) (s : String) : Bool :=
  xs.any fun v =>
    match v with
    | Value.str t => t = s
    | _ => false

/-- `_get_text_content`: a string verbatim; a mapping's `content`, `text`
or `data` field (in that order) coerced by `str`; otherwise `str` of the
whole value.  On a list, Python's `"content" in result` is element
membership and the subsequent `result["content"]` raises `TypeError`; on a
scalar the membership test itself raises `TypeError`. -/
def getTextContent : Value → Except PyErr String
  | Value.str s => Except.ok s
  | Value.dict kvs =>
    match alistGet kvs "content" with
    | some v => Except.ok (pyStr v)
    | Option.none =>
      match alistGet kvs "text" with
      | some v => Except.ok (pyStr v)
      | Option.none =>
        match alistGet kvs "data" with
        | some v => Except.ok (pyStr v)
        | Option.none => Except.ok (pyStr (Value.dict kvs))
  | Value.list xs =>
    if containsStr xs "content" || containsStr xs "text" || containsStr xs "data" then
      Except.error (PyErr.typeError "list indices must be integers or slices, not str")
    else Except.ok (pyStr (Value.list xs))
  | _ => Except.error (PyErr.typeError "argument is not iterable")

/-- `_extract_by_pattern`: the `re.search(pattern, text, DOTALL|MULTILINE)`
call is the external regex engine, taken as the oracle `search` returning
`match.group(0)`; no match raises `ValueError`. -/
def extractByPattern (search : String → String → Option String)
    (text : String) (pat : String) : Except PyErr String :=
  match search pat text with
  | some m => Except.ok m
  | Option.none =>
    Except.error (PyErr.valueError ("Pattern \x27" ++ pat ++ "\x27 not found in content"))

/-- Python `s.split(c)` for a single-character separator (used by
`path.split(".")` and the newline split of `_extract_by_lines`). -/
def splitOnChar (c : Char) : List Char → List (List Char)
  | [] => [[]]
  | a :: rest =>
    let r := splitOnChar c rest
    if a = c then [] :: r
    else
      match r with
      | [] => [[a]]
      | g :: gs => (a :: g) :: gs

/-- Python list slice `l[start:stop]` for arbitrary integer bounds. -/
def pySlice {α : Type} (l : List α) (start stop : Int) : List α :=
  let n : Int := l.length
  let s := if start < 0 then max 0 (n + start) else min start n
  let e := if stop < 0 then max 0 (n + stop) else min stop n
  (l.take e.toNat).drop s.toNat

/-- `_extract_by_lines`: split on newlines, take the 1-indexed inclusive
range with the start clamped below by 1 and the end clamped above by the
line count, and join back. -/
def extractByLines (text : String) (startL endL : Int) : String :=
  let lines := (splitOnChar '\n' text.data).map String.mk
  let startIdx : Int := max 0 (startL - 1)
  let endIdx : Int := min (lines.length : Int) endL
  String.intercalate "\n" (pySlice lines startIdx endIdx)

/-- The `KeyError` message of `_extract_by_json_path`. -/
def pathMsg (path part : String) : String :=
  "Path \x27" ++ path ++ "\x27 not found at \x27" ++ part ++ "\x27"

/-- The walk of `_extract_by_json_path` over the dot-separated segments:
a mapping key when present; a positional index when the node is a list and
the segment is all digits — where an out-of-range index raises Python's
bare `IndexError` from `current[int(part)]`, not the descriptive
`KeyError`; every other situation raises the `KeyError` naming the path
and the segment. -/
def jsonPathGo (path : String) : List String → Value → Except PyErr Value
  | [], cur => Except.ok cur
  | part :: rest, Value.dict kvs =>
    match alistGet kvs part with
    | some v => jsonPathGo path rest v
    | Option.none => Except.error (PyErr.keyError (pathMsg path part))
  | part :: rest, Value.list xs =>
    if pyIsDigitStr part then
      match xs.get? (parseDigits part) with
      | some v => jsonPathGo path rest v
      | Option.none => Except.error (PyErr.indexError "list index out of range")
    else Except.error (PyErr.keyError (pathMsg path part))
  | part :: _, _ => Except.error (PyErr.keyError (pathMsg path part))

/-- `_extract_by_json_path` (src/clipboard.py 206–217). -/
def extractByJsonPath (result : Value) (path : String) : Except PyErr Value :=
  jsonPathGo path ((splitOnChar '.' path.data).map String.mk) result

/-- `_truncate`: `repr` for non-strings, cut at `maxLen` with a `...`
suffix. -/
def pyTruncate (v : Value) (maxLen : Nat) : String :=
  let s := match v with
    | Value.str t => t
    | w => pyRepr w
  if s.length > maxLen then s.take maxLen ++ "..." else s

/-- The `args` dict of the `copy` tool, restricted to its schema fields;
an `Option` field is `some` exactly when the key is present in the dict
(the `"json_path" in args` membership tests). -/
structure CopyArgs where
  slot : String
  source : String
  pattern : Option String
  start_line : Option Int
  end_line : Option Int
  json_path : Option String

/-- `execute_copy` (src/clipboard.py 264–303): resolve the source
reference, extract by exactly one mode — `json_path`, else `pattern`,
else `start_line`+`end_line`, else full text — store the extraction in
the clipboard slot, and return the result dict.  Any raise happens before
`clipboard.set`, so a failure leaves the clipboard untouched. -/
def executeCopy (search : String → String → Option String)
    (c : ClipboardState) (rs : ToolResultStore) (args : CopyArgs) :
    Except PyErr (Value × ClipboardState) :=
  match rs.get args.source with
  | Except.error e => Except.error e
  | Except.ok src =>
    let result := src.result
    let ext : Except PyErr (Value × String) :=
      match args.json_path with
      | some p => (extractByJsonPath result p).map fun v => (v, "json_path=" ++ p)
      | Option.none =>
        match args.pattern with
        | some pat =>
          match getTextContent result with
          | Except.error e => Except.error e
          | Except.ok text =>
            (extractByPattern search text pat).map fun m =>
              (Value.str m, "pattern=" ++ pat.take 50 ++ "...")
        | Option.none =>
          match args.start_line, args.end_line with
          | some a, some b =>
            match getTextContent result with
            | Except.error e => Except.error e
            | Except.ok text =>
              Except.ok (Value.str (extractByLines text a b),
                "lines " ++ toString a ++ "-" ++ toString b)
          | _, _ =>
            match getTextContent result with
            | Except.error e => Except.error e
            | Except.ok text => Except.ok (Value.str text, "full content")
    match ext with
    | Except.error e => Except.error e
    | Except.ok (extracted, method) =>
      let c2 := c.set args.slot extracted
      Except.ok (Value.dict
        [("success", Value.bool true),
         ("slot", Value.str args.slot),
         ("source", Value.str args.source),
         ("method", Value.str method),
         ("bytes_extracted", Value.int (pyLen extracted : Int)),
         ("preview", Value.str (pyTruncate extracted 200))], c2)

/-- Field lookup inside the result dict of `execute_copy`. -/
def vdictGet : Value → String → Option Value
  | Value.dict kvs, k => alistGet kvs k
  | _, _ => Option.none

/-! ### `ClipboardAgent._execute_tool_call` (src/agent.py 35–68) -/

/-- The `call_record` dict.  `result` is attached by the code only after
the tool has produced one; a record that reached the log therefore always
carries `some` result. -/
structure CallRecord where
  tool : String
  input : Value
  used_clipboard : Bool
  result : Option Value

/-- The mutable agent fields touched by `_execute_tool_call`. -/
structure AgentState where
  clipboard : ClipboardState
  resultStore : ToolResultStore
  toolCalls : List CallRecord

/-- A fresh agent: empty clipboard, empty result store, empty call log. -/
def AgentState.init : AgentState := ⟨ClipboardState.init, ToolResultStore.init, []⟩

/-- Required string field of the `copy` args dict (`args["slot"]`). -/
def reqStrField (kvs : List (String × Value)) (k : String) : Except PyErr String :=
  match alistGet kvs k with
  | Option.none => Except.error (PyErr.keyError (pyQuote k))
  | some (Value.str s) => Except.ok s
  | some _ => Except.error (PyErr.typeError (k ++ " is not a string"))

/-- Optional string field of the `copy` args dict (schema-typed; the tool
schema constrains the field types, a non-conforming value is the
`TypeError` Python would raise downstream). -/
def optStrField (kvs : List (String × Value)) (k : String) :
    Except PyErr (Option String) :=
  match alistGet kvs k with
  | Option.none => Except.ok Option.none
  | some (Value.str s) => Except.ok (some s)
  | some _ => Except.error (PyErr.typeError (k ++ " is not a string"))

/-- Optional integer field of the `copy` args dict. -/
def optIntField (kvs : List (String × Value)) (k : String) :
    Except PyErr (Option Int) :=
  match alistGet kvs k with
  | Option.none => Except.ok Option.none
  | some (Value.int n) => Except.ok (some n)
  | some _ => Except.error (PyErr.typeError (k ++ " is not an integer"))

/-- Marshal the raw `tool_input` dict into `CopyArgs`. -/
def copyArgsOfValue : Value → Except PyErr CopyArgs
  | Value.dict kvs => do
    let slot ← reqStrField kvs "slot"
    let source ← reqStrField kvs "source"
    let pat ← optStrField kvs "pattern"
    let sl ← optIntField kvs "start_line"
    let el ← optIntField kvs "end_line"
    let jp ← optStrField kvs "json_path"
    Except.ok ⟨slot, source, pat, sl, el, jp⟩
  | _ => Except.error (PyErr.typeError "args is not a mapping")

/-- `ClipboardAgent._execute_tool_call`: dispatch on the tool name —
`copy`, `template_invoke`, or the external `execute_tool` collaborator
(the oracle `execT`, which performs file IO and may raise).  The
`call_record` gets its `result` and is appended to `tool_calls` only
after the dispatched call returned; a raise from any branch propagates
and skips the append (clipboard mutations already made by rendering
persist).  Only the external branch stores its result in the
`ToolResultStore`. -/
def executeToolCall (search : String → String → Option String)
    (execT : String → Value → Except PyErr Value)
    (st : AgentState) (toolName : String) (input : Value) :
    Except PyErr Value × AgentState :=
  if toolName = "copy" then
    match copyArgsOfValue input with
    | Except.error e => (Except.error e, st)
    | Except.ok args =>
      match executeCopy search st.clipboard st.resultStore args with
      | Except.error e => (Except.error e, st)
      | Except.ok (result, c2) =>
        (Except.ok result,
         { st with
             clipboard := c2
             toolCalls := st.toolCalls ++ [⟨toolName, input, true, some result⟩] })
  else if toolName = "template_invoke" then
    match input with
    | Value.dict kvs =>
      match alistGet kvs "template" with
      | Option.none => (Except.error (PyErr.keyError "\x27template\x27"), st)
      | some template =>
        match executeTemplateInvoke execT template st.clipboard with
        | (Except.error e, c2) => (Except.error e, { st with clipboard := c2 })
        | (Except.ok result, c2) =>
          (Except.ok result,
           { st with
               clipboard := c2
               toolCalls := st.toolCalls ++ [⟨toolName, input, true, some result⟩] })
    | _ => (Except.error (PyErr.typeError "tool input is not a mapping"), st)
  else
    match execT toolName input with
    | Except.error e => (Except.error e, st)
    | Except.ok result =>
      (Except.ok result,
       { st with
           resultStore := (st.resultStore.store toolName result).1
           toolCalls := st.toolCalls ++ [⟨toolName, input, false, some result⟩] })

/-! ### Association-list lemmas -/

theorem alistGet_set_self {α : Type} (l : List (String × α)) (k : String) (v : α) :
    alistGet (alistSet l k v) k = some v := by
  induction l with
  | nil => simp [alistSet, alistGet]
  | cons p rest ih =>
    obtain ⟨k2, w⟩ := p
    by_cases h : k2 = k
    · simp [alistSet, h, alistGet]
    · simp [alistSet, h, alistGet, ih]

theorem alistGet_set_ne {α : Type} (l : List (String × α)) (k m : String) (v : α)
    (h : m ≠ k) : alistGet (alistSet l k v) m = alistGet l m := by
  induction l with
  | nil => simp [alistSet, alistGet, Ne.symm h]
  | cons p rest ih =>
    obtain ⟨k2, w⟩ := p
    by_cases h2 : k2 = k
    · subst h2
      simp [alistSet, alistGet, Ne.symm h]
    · simp only [alistSet, if_neg h2, alistGet]
      by_cases h3 : k2 = m <;> simp [h3, ih]

theorem alistGet_pop_self {α : Type} (l : List (String × α)) (k : String) :
    alistGet (alistPop l k) k = Option.none := by
  induction l with
  | nil => simp [alistPop, alistGet]
  | cons p rest ih =>
    obtain ⟨k2, w⟩ := p
    by_cases h : k2 = k
    · simpa [alistPop, h] using ih
    · simpa [alistPop, alistGet, h] using ih

theorem alistGet_mem_keys {α : Type} (l : List (String × α)) (k : String) (v : α)
    (h : alistGet l k = some v) : k ∈ alistKeys l := by
  induction l with
  | nil => simp [alistGet] at h
  | cons p rest ih =>
    obtain ⟨k2, w⟩ := p
    by_cases h2 : k2 = k
    · simp [alistKeys, h2]
    · simp only [alistGet, if_neg h2] at h
      simp [alistKeys] at ih ⊢
      exact Or.inr (ih h)

/-! ### `ClipboardState` operation lemmas -/

theorem recordUsage_slots (c : ClipboardState) (s : String) :
    (c.recordUsage s).slots = c.slots := by
  unfold ClipboardState.recordUsage
  cases alistGet c.usageCount s <;> rfl

theorem recordUsage_bytes (c : ClipboardState) (s : String) :
    (c.recordUsage s).bytesStored = c.bytesStored := by
  unfold ClipboardState.recordUsage
  cases alistGet c.usageCount s <;> rfl

theorem recordUsage_usage (c : ClipboardState) (s m : String) :
    alistGet (c.recordUsage s).usageCount m =
      if m = s then (alistGet c.usageCount m).map (· + 1)
      else alistGet c.usageCount m := by
  unfold ClipboardState.recordUsage
  by_cases hm : m = s
  · subst hm
    cases h : alistGet c.usageCount m with
    | none => simp [h]
    | some n => simp [h, alistGet_set_self]
  · cases h : alistGet c.usageCount s with
    | none => simp [hm]
    | some n => simp [hm, alistGet_set_ne _ _ _ _ hm]

theorem recordUsage_WF (c : ClipboardState) (s : String) (h : c.WF) :
    (c.recordUsage s).WF := by
  intro k hk
  rw [show alistKeys (c.recordUsage s).slots = alistKeys c.slots from by
    rw [recordUsage_slots]] at hk
  have := h k hk
  rw [recordUsage_usage]
  by_cases hm : k = s
  · subst hm
    simp only [if_pos rfl]
    cases hh : alistGet c.usageCount k with
    | none => rw [hh] at this; simp at this
    | some n => simp
  · simpa [hm] using this

theorem clipGet_ok (c : ClipboardState) (s : String) (v : Value)
    (h : alistGet c.slots s = some v) : c.get s = Except.ok v := by
  unfold ClipboardState.get
  rw [h]

/-! ### C4, C6, C7, C8 -/

/-- C4 (corrected): `estimateSavings` computes `bytesSubstituted` as the
sum of `byteSize * useCount` over the per-slot bookkeeping entries (which
include slots cleared since they were set, not only the currently
existing slots), `estimatedTokensSaved` as `bytesSubstituted / 4`
truncating, `referenceOverheadTokens` as the truncated quarter of the sum
of `(4 + length slotName) * useCount`, and `netTokensSaved` as their
difference; when every recorded usage count is zero it reports
`bytesSubstituted = 0` and `netTokensSaved = 0`. -/
theorem C4_savings_formulas (c : ClipboardState) :
    c.getTokenSavingsEstimate.bytes_substituted =
      (c.usageCount.map fun p => ((alistGet c.bytesStored p.1).getD 0) * p.2).sum ∧
    c.getTokenSavingsEstimate.estimated_tokens_saved =
      c.getTokenSavingsEstimate.bytes_substituted / 4 ∧
    c.getTokenSavingsEstimate.reference_overhead_tokens =
      ((c.usageCount.map fun p => (4 + p.1.length) * p.2).sum) / 4 ∧
    c.getTokenSavingsEstimate.net_tokens_saved =
      (c.getTokenSavingsEstimate.estimated_tokens_saved : Int) -
        (c.getTokenSavingsEstimate.reference_overhead_tokens : Int) ∧
    ((∀ p ∈ c.usageCount, p.2 = 0) →
      c.getTokenSavingsEstimate.bytes_substituted = 0 ∧
      c.getTokenSavingsEstimate.net_tokens_saved = 0) := by
  refine ⟨rfl, rfl, rfl, rfl, fun hz => ?_⟩
  have hsub : c.getTokenSavingsEstimate.bytes_substituted = 0 := by
    show (c.usageCount.map fun p => ((alistGet c.bytesStored p.1).getD 0) * p.2).sum = 0
    apply List.sum_eq_zero
    intro x hx
    obtain ⟨p, hp, hpx⟩ := List.mem_map.mp hx
    rw [← hpx, hz p hp, Nat.mul_zero]
  have hov : (c.usageCount.map fun p => (4 + p.1.length) * p.2).sum = 0 := by
    apply List.sum_eq_zero
    intro x hx
    obtain ⟨p, hp, hpx⟩ := List.mem_map.mp hx
    rw [← hpx, hz p hp, Nat.mul_zero]
  refine ⟨hsub, ?_⟩
  show (((c.usageCount.map fun p => ((alistGet c.bytesStored p.1).getD 0) * p.2).sum / 4 : Nat) : Int) -
      (((c.usageCount.map fun p => (4 + p.1.length) * p.2).sum / 4 : Nat) : Int) = 0
  rw [show (c.usageCount.map fun p => ((alistGet c.bytesStored p.1).getD 0) * p.2).sum = 0 from hsub, hov]
  simp

/-- C4 witness: a clipboard with one never-used slot reports zero
substituted bytes and zero net savings. -/
theorem C4_savings_formulas_witness :
    (∀ p ∈ (ClipboardState.init.set "a" (Value.str "abc")).usageCount, p.2 = 0) ∧
    (ClipboardState.init.set "a" (Value.str "abc")).getTokenSavingsEstimate.bytes_substituted = 0 ∧
    (ClipboardState.init.set "a" (Value.str "abc")).getTokenSavingsEstimate.net_tokens_saved = 0 :=
  ⟨by decide, (C4_savings_formulas (ClipboardState.init.set "a" (Value.str "abc"))).2.2.2.2 (by decide)⟩

/-- C4 counterexample: set a slot with 8 bytes, use it once, then clear
it.  The clipboard then has no slots at all — so every existing slot has
`useCount` 0 vacuously — yet `estimateSavings` still reports
`bytesSubstituted = 8` and `netTokensSaved = 1`, because the usage and
byte bookkeeping survive `clear`. -/
theorem C4_counterexample :
    (((ClipboardState.init.set "a" (Value.str "xxxxxxxx")).recordUsage "a").clear
        (some "a")).slots = [] ∧
    (((ClipboardState.init.set "a" (Value.str "xxxxxxxx")).recordUsage "a").clear
        (some "a")).getTokenSavingsEstimate.bytes_substituted = 8 ∧
    (((ClipboardState.init.set "a" (Value.str "xxxxxxxx")).recordUsage "a").clear
        (some "a")).getTokenSavingsEstimate.net_tokens_saved = 1 :=
  ⟨rfl, rfl, rfl⟩

/-- C6 (code_bug): jsonPath `items.1` against `{"items": ["a","b","c"]}`
yields `"b"`, and a missing mapping key fails with the `KeyError` naming
the segment and the path — but the out-of-range index `items.9` raises
Python's bare `IndexError` from the unguarded `current[int(part)]`,
which is not the `NotFound` error naming segment and path that the spec
describes. -/
theorem C6_json_path_failures :
    extractByJsonPath
        (Value.dict [("items", Value.list [Value.str "a", Value.str "b", Value.str "c"])])
        "items.1" = Except.ok (Value.str "b") ∧
    extractByJsonPath
        (Value.dict [("items", Value.list [Value.str "a", Value.str "b", Value.str "c"])])
        "items.9" = Except.error (PyErr.indexError "list index out of range") ∧
    extractByJsonPath
        (Value.dict [("items", Value.list [Value.str "a", Value.str "b", Value.str "c"])])
        "missing.x" = Except.error (PyErr.keyError (pathMsg "missing.x" "missing")) :=
  ⟨rfl, rfl, rfl⟩

/-- C7 (corrected): `bytesStored` sums the byte-size bookkeeping entries,
which cover every slot ever set: `clear(slot)` removes only the stored
value, leaving the slot's `byteSize` in `bytesStored` and its `useCount`
contributions in place. -/
theorem C7_bytes_stored_bookkeeping (c : ClipboardState) (s : String) :
    c.getTokenSavingsEstimate.bytes_stored = (c.bytesStored.map Prod.snd).sum ∧
    (c.clear (some s)).bytesStored = c.bytesStored ∧
    (c.clear (some s)).usageCount = c.usageCount ∧
    (s.data.isEmpty = false → alistGet (c.clear (some s)).slots s = Option.none) ∧
    (c.clear (some s)).getTokenSavingsEstimate.bytes_stored =
      c.getTokenSavingsEstimate.bytes_stored := by
  have h2 : (c.clear (some s)).bytesStored = c.bytesStored := by
    unfold ClipboardState.clear
    by_cases h : s.data.isEmpty = true <;> simp [h]
  have h3 : (c.clear (some s)).usageCount = c.usageCount := by
    unfold ClipboardState.clear
    by_cases h : s.data.isEmpty = true <;> simp [h]
  refine ⟨rfl, h2, h3, fun hne => ?_, ?_⟩
  · show alistGet (ClipboardState.clear c (some s)).slots s = Option.none
    unfold ClipboardState.clear
    simp only [hne, Bool.false_eq_true, if_false]
    exact alistGet_pop_self c.slots s
  · show ((c.clear (some s)).bytesStored.map Prod.snd).sum =
      (c.bytesStored.map Prod.snd).sum
    rw [h2]

/-- C7 witness: clearing the only slot leaves its 4 bytes in
`bytesStored`. -/
theorem C7_bytes_stored_bookkeeping_witness :
    (((ClipboardState.init.set "a" (Value.str "xxxx")).clear (some "a")).bytesStored =
      (ClipboardState.init.set "a" (Value.str "xxxx")).bytesStored) ∧
    alistGet (((ClipboardState.init.set "a" (Value.str "xxxx")).clear (some "a")).slots) "a" =
      Option.none :=
  ⟨(C7_bytes_stored_bookkeeping (ClipboardState.init.set "a" (Value.str "xxxx")) "a").2.1,
   (C7_bytes_stored_bookkeeping (ClipboardState.init.set "a" (Value.str "xxxx")) "a").2.2.2.1
     (by decide)⟩

/-- C7 counterexample: after `set("a", "xxxx")` and `clear("a")` the
clipboard has no slots, so the sum of byteSize over existing slots is 0,
yet `estimateSavings` reports `bytesStored = 4`. -/
theorem C7_counterexample :
    ((ClipboardState.init.set "a" (Value.str "xxxx")).clear (some "a")).slots = [] ∧
    ((ClipboardState.init.set "a" (Value.str "xxxx")).clear
        (some "a")).getTokenSavingsEstimate.bytes_stored = 4 :=
  ⟨rfl, rfl⟩

/-- C8 (corrected): `store` appends the entry under its tool name in
order, moves the "last" pointer to it and never fails — but it returns
Python's `None`, not the new ordinal; the ordinal is computed only for a
log line. -/
theorem C8_store_appends (st : ToolResultStore) (n : String) (v : Value) :
    (st.store n v).2 = Value.none ∧
    (st.store n v).1.last = some ⟨n, v⟩ ∧
    alistGet (st.store n v).1.byTool n =
      some ((alistGet st.byTool n).getD [] ++ [⟨n, v⟩]) ∧
    ∀ m, m ≠ n → alistGet (st.store n v).1.byTool m = alistGet st.byTool m := by
  refine ⟨rfl, rfl, alistGet_set_self _ _ _, fun m hm => alistGet_set_ne _ _ _ _ hm⟩

/-- C8 witness: two stores under one name append in order. -/
theorem C8_store_appends_witness :
    alistGet (((ToolResultStore.init.store "t" (Value.str "one")).1.store "t"
        (Value.str "two")).1).byTool "t" =
      some [⟨"t", Value.str "one"⟩, ⟨"t", Value.str "two"⟩] ∧
    alistGet (((ToolResultStore.init.store "t" (Value.str "one")).1.store "t"
        (Value.str "two")).1).byTool "other" = Option.none :=
  ⟨(C8_store_appends (ToolResultStore.init.store "t" (Value.str "one")).1 "t"
      (Value.str "two")).2.2.1,
   (C8_store_appends (ToolResultStore.init.store "t" (Value.str "one")).1 "t"
      (Value.str "two")).2.2.2 "other" (by decide)⟩

/-- C8 counterexample: the very first `store` call returns `None`, not
the ordinal `0` the claim promises. -/
theorem C8_counterexample :
    (ToolResultStore.init.store "t" (Value.str "v")).2 = Value.none ∧
    Value.none ≠ Value.int 0 :=
  ⟨rfl, fun h => Value.noConfusion h⟩

/-! ### C5 -/

/-- C5 (confirmed): exactly one extraction mode is applied, with
precedence `json_path` over `pattern` over line-range over full text.
With `json_path` present the result is independent of the `pattern` and
line fields (and dually for `pattern` over the line fields), and on
success the result's `method` field names exactly the mode that ran. -/
theorem C5_extraction_precedence (search : String → String → Option String)
    (c : ClipboardState) (rs : ToolResultStore) (args : CopyArgs) :
    (args.json_path.isSome = true →
      executeCopy search c rs args =
        executeCopy search c rs
          { args with pattern := Option.none, start_line := Option.none,
                      end_line := Option.none }) ∧
    (args.json_path = Option.none → args.pattern.isSome = true →
      executeCopy search c rs args =
        executeCopy search c rs
          { args with start_line := Option.none, end_line := Option.none }) ∧
    (∀ p out c2, args.json_path = some p →
      executeCopy search c rs args = Except.ok (out, c2) →
      vdictGet out "method" = some (Value.str ("json_path=" ++ p))) ∧
    (∀ pat out c2, args.json_path = Option.none → args.pattern = some pat →
      executeCopy search c rs args = Except.ok (out, c2) →
      vdictGet out "method" = some (Value.str ("pattern=" ++ pat.take 50 ++ "..."))) ∧
    (∀ a b out c2, args.json_path = Option.none → args.pattern = Option.none →
      args.start_line = some a → args.end_line = some b →
      executeCopy search c rs args = Except.ok (out, c2) →
      vdictGet out "method" =
        some (Value.str ("lines " ++ toString a ++ "-" ++ toString b))) ∧
    (∀ out c2, args.json_path = Option.none → args.pattern = Option.none →
      (args.start_line = Option.none ∨ args.end_line = Option.none) →
      executeCopy search c rs args = Except.ok (out, c2) →
      vdictGet out "method" = some (Value.str "full content")) := by
  obtain ⟨slot, source, pat0, sl0, el0, jp0⟩ := args
  refine ⟨?_, ?_, ?_, ?_, ?_, ?_⟩
  · intro hjp
    obtain ⟨p, rfl⟩ := Option.isSome_iff_exists.mp hjp
    unfold executeCopy
    cases hg : ToolResultStore.get rs source <;> rfl
  · intro hjp hpat
    subst hjp
    obtain ⟨pat, rfl⟩ := Option.isSome_iff_exists.mp hpat
    unfold executeCopy
    cases hg : ToolResultStore.get rs source <;> rfl
  · intro p out c2 hjp heq
    subst hjp
    unfold executeCopy at heq
    cases hg : ToolResultStore.get rs source with
    | error e => rw [hg] at heq; simp at heq
    | ok src =>
      rw [hg] at heq
      dsimp only at heq
      cases hx : extractByJsonPath src.result p with
      | error e => rw [hx] at heq; simp [Except.map] at heq
      | ok v =>
        rw [hx] at heq
        simp [Except.map] at heq
        obtain ⟨rfl, rfl⟩ := heq
        rfl
  · intro pat out c2 hjp hpat heq
    subst hjp
    subst hpat
    unfold executeCopy at heq
    cases hg : ToolResultStore.get rs source with
    | error e => rw [hg] at heq; simp at heq
    | ok src =>
      rw [hg] at heq
      dsimp only at heq
      cases hgt : getTextContent src.result with
      | error e => rw [hgt] at heq; simp at heq
      | ok text =>
        rw [hgt] at heq
        dsimp only at heq
        unfold extractByPattern at heq
        cases hsr : search pat text with
        | none => rw [hsr] at heq; simp [Except.map] at heq
        | some m =>
          rw [hsr] at heq
          simp [Except.map] at heq
          obtain ⟨rfl, rfl⟩ := heq
          rfl
  · intro a b out c2 hjp hpat hsl hel heq
    subst hjp
    subst hpat
    subst hsl
    subst hel
    unfold executeCopy at heq
    cases hg : ToolResultStore.get rs source with
    | error e => rw [hg] at heq; simp at heq
    | ok src =>
      rw [hg] at heq
      dsimp only at heq
      cases hgt : getTextContent src.result with
      | error e => rw [hgt] at heq; simp at heq
      | ok text =>
        rw [hgt] at heq
        simp at heq
        obtain ⟨rfl, rfl⟩ := heq
        rfl
  · intro out c2 hjp hpat hor heq
    subst hjp
    subst hpat
    unfold executeCopy at heq
    cases hg : ToolResultStore.get rs source with
    | error e => rw [hg] at heq; simp at heq
    | ok src =>
      rw [hg] at heq
      dsimp only at heq
      rcases hor with h | h
      · subst h
        cases hgt : getTextContent src.result with
        | error e => rw [hgt] at heq; simp at heq
        | ok text =>
          rw [hgt] at heq
          simp at heq
          obtain ⟨rfl, rfl⟩ := heq
          rfl
      · subst h
        cases sl0 with
        | none =>
          cases hgt : getTextContent src.result with
          | error e => rw [hgt] at heq; simp at heq
          | ok text =>
            rw [hgt] at heq
            simp at heq
            obtain ⟨rfl, rfl⟩ := heq
            rfl
        | some a =>
          cases hgt : getTextContent src.result with
          | error e => rw [hgt] at heq; simp at heq
          | ok text =>
            rw [hgt] at heq
            simp at heq
            obtain ⟨rfl, rfl⟩ := heq
            rfl

/-- C5 witness: with both `json_path` and `pattern` present, the result
equals the one computed with `pattern` (and line fields) removed: only
`json_path` is honored. -/
theorem C5_extraction_precedence_witness :
    executeCopy (fun _ _ => Option.none) ClipboardState.init
        (ToolResultStore.init.store "read_file"
          (Value.dict [("items", Value.list [Value.str "a", Value.str "b"])])).1
        ⟨"slotA", "read_file", some "zzz", some 1, some 2, some "items.1"⟩ =
      executeCopy (fun _ _ => Option.none) ClipboardState.init
        (ToolResultStore.init.store "read_file"
          (Value.dict [("items", Value.list [Value.str "a", Value.str "b"])])).1
        ⟨"slotA", "read_file", Option.none, Option.none, Option.none, some "items.1"⟩ :=
  (C5_extraction_precedence (fun _ _ => Option.none) ClipboardState.init
      (ToolResultStore.init.store "read_file"
        (Value.dict [("items", Value.list [Value.str "a", Value.str "b"])])).1
      ⟨"slotA", "read_file", some "zzz", some 1, some 2, some "items.1"⟩).1 rfl

/-! ### C9 -/

/-- C9 (corrected): an error from the external `execute` collaborator
propagates to the caller unchanged, but the call is NOT recorded in the
tool-call log: the `call_record` is appended only after a result was
obtained, so whenever `_execute_tool_call` ends in an error — in any
branch — `tool_calls` is left exactly as it was. -/
theorem C9_error_not_recorded (search : String → String → Option String)
    (execT : String → Value → Except PyErr Value)
    (st : AgentState) (toolName : String) (input : Value) :
    (∀ e, toolName ≠ "copy" → toolName ≠ "template_invoke" →
      execT toolName input = Except.error e →
      executeToolCall search execT st toolName input = (Except.error e, st)) ∧
    (∀ e, (executeToolCall search execT st toolName input).1 = Except.error e →
      (executeToolCall search execT st toolName input).2.toolCalls = st.toolCalls) := by
  constructor
  · intro e h1 h2 hexec
    unfold executeToolCall
    rw [if_neg h1, if_neg h2, hexec]
  · intro e herr
    unfold executeToolCall at herr ⊢
    by_cases h1 : toolName = "copy"
    · rw [if_pos h1] at herr ⊢
      split at herr
      · rfl
      · split at herr
        · rfl
        · simp at herr
    · rw [if_neg h1] at herr ⊢
      by_cases h2 : toolName = "template_invoke"
      · rw [if_pos h2] at herr ⊢
        cases input with
        | dict kvs =>
          dsimp only at herr ⊢
          split at herr
          · rfl
          · split at herr
            · rfl
            · simp at herr
        | none => rfl
        | bool b => rfl
        | int n => rfl
        | str s => rfl
        | list xs => rfl
      · rw [if_neg h2] at herr ⊢
        split at herr
        · rfl
        · simp at herr

/-- C9 witness: an always-raising executor's error comes back unchanged
and the agent state — including the call log — is untouched. -/
theorem C9_error_not_recorded_witness :
    executeToolCall (fun _ _ => Option.none)
        (fun _ _ => Except.error (PyErr.valueError "boom"))
        AgentState.init "read_file" (Value.dict []) =
      (Except.error (PyErr.valueError "boom"), AgentState.init) :=
  (C9_error_not_recorded (fun _ _ => Option.none)
      (fun _ _ => Except.error (PyErr.valueError "boom"))
      AgentState.init "read_file" (Value.dict [])).1
    (PyErr.valueError "boom") (by decide) (by decide) rfl

/-- C9 counterexample: with an executor that raises, the dispatched call
ends in that very error and the tool-call log stays empty — there is no
"call attempt with no result attached" record. -/
theorem C9_counterexample :
    (executeToolCall (fun _ _ => Option.none)
        (fun _ _ => Except.error (PyErr.valueError "boom"))
        AgentState.init "read_file" (Value.dict [])).2.toolCalls = [] ∧
    (executeToolCall (fun _ _ => Option.none)
        (fun _ _ => Except.error (PyErr.valueError "boom"))
        AgentState.init "read_file" (Value.dict [])).1 =
      Except.error (PyErr.valueError "boom") :=
  ⟨rfl, rfl⟩

/-! ### Render state-preservation lemmas, C1 and C10 -/

theorem interpGoF_succ (fuel : Nat) (c : ClipboardState) (cs : List Char) :
    interpGoF (fuel + 1) c cs =
      match matchPH cs with
      | some (slotName, rest) =>
        match c.get slotName with
        | Except.error e => (Except.error e, c)
        | Except.ok v =>
          let c2 := c.recordUsage slotName
          match interpGoF fuel c2 rest with
          | (Except.error e, c3) => (Except.error e, c3)
          | (Except.ok out, c3) => (Except.ok ((pyStr v).data ++ out), c3)
      | Option.none =>
        match cs with
        | [] => (Except.ok [], c)
        | ch :: rest =>
          match interpGoF fuel c rest with
          | (Except.error e, c3) => (Except.error e, c3)
          | (Except.ok out, c3) => (Except.ok (ch :: out), c3) := rfl

theorem render_str_eq (s : String) (c : ClipboardState) :
    render (Value.str s) c =
      match fullPlaceholder (pyStrip s) with
      | some slotName =>
        match c.get slotName with
        | Except.error e => (Except.error e, c)
        | Except.ok v => (Except.ok v, c.recordUsage slotName)
      | Option.none =>
        match interpolate c s with
        | (Except.error e, c2) => (Except.error e, c2)
        | (Except.ok out, c2) => (Except.ok (Value.str out), c2) := rfl

theorem render_dict_eq (kvs : List (String × Value)) (c : ClipboardState) :
    render (Value.dict kvs) c =
      match renderDict kvs c with
      | (Except.error e, c2) => (Except.error e, c2)
      | (Except.ok kvs2, c2) => (Except.ok (Value.dict kvs2), c2) := rfl

theorem render_list_eq (xs : List Value) (c : ClipboardState) :
    render (Value.list xs) c =
      match renderList xs c with
      | (Except.error e, c2) => (Except.error e, c2)
      | (Except.ok ys, c2) => (Except.ok (Value.list ys), c2) := rfl

theorem renderList_cons_eq (x : Value) (xs : List Value) (c : ClipboardState) :
    renderList (x :: xs) c =
      match render x c with
      | (Except.error e, c2) => (Except.error e, c2)
      | (Except.ok y, c2) =>
        match renderList xs c2 with
        | (Except.error e, c3) => (Except.error e, c3)
        | (Except.ok ys, c3) => (Except.ok (y :: ys), c3) := rfl

theorem renderDict_cons_eq (k : String) (x : Value) (kvs : List (String × Value))
    (c : ClipboardState) :
    renderDict ((k, x) :: kvs) c =
      match render x c with
      | (Except.error e, c2) => (Except.error e, c2)
      | (Except.ok y, c2) =>
        match renderDict kvs c2 with
        | (Except.error e, c3) => (Except.error e, c3)
        | (Except.ok kvs2, c3) => (Except.ok ((k, y) :: kvs2), c3) := rfl

theorem interpGoF_pres : ∀ (fuel : Nat) (c : ClipboardState) (cs : List Char),
    (interpGoF fuel c cs).2.slots = c.slots ∧
    (interpGoF fuel c cs).2.bytesStored = c.bytesStored := by
  intro fuel
  induction fuel with
  | zero => intro c cs; exact ⟨rfl, rfl⟩
  | succ n ih =>
    intro c cs
    rw [interpGoF_succ]
    cases hm : matchPH cs with
    | some pr =>
      obtain ⟨slotName, rest⟩ := pr
      dsimp only
      cases hg : c.get slotName with
      | error e => exact ⟨rfl, rfl⟩
      | ok v =>
        dsimp only
        have h2 := ih (c.recordUsage slotName) rest
        cases hrec : interpGoF n (c.recordUsage slotName) rest with
        | mk r c3 =>
          rw [hrec] at h2
          cases r <;> dsimp only <;>
            exact ⟨h2.1.trans (recordUsage_slots c slotName),
              h2.2.trans (recordUsage_bytes c slotName)⟩
    | none =>
      dsimp only
      cases cs with
      | nil => exact ⟨rfl, rfl⟩
      | cons ch rest =>
        dsimp only
        have h2 := ih c rest
        cases hrec : interpGoF n c rest with
        | mk r c3 =>
          rw [hrec] at h2
          cases r <;> dsimp only <;> exact h2

theorem interpolate_pres (c : ClipboardState) (s : String) :
    (interpolate c s).2.slots = c.slots ∧
    (interpolate c s).2.bytesStored = c.bytesStored := by
  unfold interpolate
  have h := interpGoF_pres s.data.length c s.data
  cases hi : interpGoF s.data.length c s.data with
  | mk r c2 =>
    rw [hi] at h
    cases r <;> exact h

mutual

theorem render_pres : ∀ (t : Value) (c : ClipboardState),
    (render t c).2.slots = c.slots ∧ (render t c).2.bytesStored = c.bytesStored
  | Value.str s, c => by
    rw [render_str_eq]
    cases hf : fullPlaceholder (pyStrip s) with
    | some slotName =>
      dsimp only
      cases hg : c.get slotName with
      | error e => exact ⟨rfl, rfl⟩
      | ok v => exact ⟨recordUsage_slots c slotName, recordUsage_bytes c slotName⟩
    | none =>
      dsimp only
      have h2 := interpolate_pres c s
      cases hi : interpolate c s with
      | mk r c2 =>
        rw [hi] at h2
        cases r <;> exact h2
  | Value.dict kvs, c => by
    rw [render_dict_eq]
    have h2 := renderDict_pres kvs c
    cases hd : renderDict kvs c with
    | mk r c2 =>
      rw [hd] at h2
      cases r <;> exact h2
  | Value.list xs, c => by
    rw [render_list_eq]
    have h2 := renderList_pres xs c
    cases hl : renderList xs c with
    | mk r c2 =>
      rw [hl] at h2
      cases r <;> exact h2
  | Value.none, c => ⟨rfl, rfl⟩
  | Value.bool b, c => ⟨rfl, rfl⟩
  | Value.int n, c => ⟨rfl, rfl⟩

theorem renderList_pres : ∀ (xs : List Value) (c : ClipboardState),
    (renderList xs c).2.slots = c.slots ∧
    (renderList xs c).2.bytesStored = c.bytesStored
  | [], c => ⟨rfl, rfl⟩
  | x :: xs, c => by
    rw [renderList_cons_eq]
    have h1 := render_pres x c
    cases hr : render x c with
    | mk r c2 =>
      rw [hr] at h1
      cases r with
      | error e => exact h1
      | ok y =>
        dsimp only
        have h2 := renderList_pres xs c2
        cases hr2 : renderList xs c2 with
        | mk r2 c3 =>
          rw [hr2] at h2
          cases r2 <;> dsimp only <;>
            exact ⟨h2.1.trans h1.1, h2.2.trans h1.2⟩

theorem renderDict_pres : ∀ (kvs : List (String × Value)) (c : ClipboardState),
    (renderDict kvs c).2.slots = c.slots ∧
    (renderDict kvs c).2.bytesStored = c.bytesStored
  | [], c => ⟨rfl, rfl⟩
  | (k, x) :: kvs, c => by
    rw [renderDict_cons_eq]
    have h1 := render_pres x c
    cases hr : render x c with
    | mk r c2 =>
      rw [hr] at h1
      cases r with
      | error e => exact h1
      | ok y =>
        dsimp only
        have h2 := renderDict_pres kvs c2
        cases hr2 : renderDict kvs c2 with
        | mk r2 c3 =>
          rw [hr2] at h2
          cases r2 <;> dsimp only <;>
            exact ⟨h2.1.trans h1.1, h2.2.trans h1.2⟩

end

/-- C1 (confirmed): a template string that after stripping surrounding
whitespace is exactly one placeholder naming an existing slot renders to
the slot's stored value itself — original type intact, no
stringification — and records exactly one usage on that slot (the
clipboard is well-formed: reachable states give every stored slot a usage
counter).  Slot values and byte bookkeeping are untouched. -/
theorem C1_full_placeholder_type_preserving
    (c : ClipboardState) (s slotName : String) (v : Value)
    (hwf : c.WF)
    (hfull : fullPlaceholder (pyStrip s) = some slotName)
    (hslot : alistGet c.slots slotName = some v) :
    (render (Value.str s) c).1 = Except.ok v ∧
    (render (Value.str s) c).2.slots = c.slots ∧
    (render (Value.str s) c).2.bytesStored = c.bytesStored ∧
    (∃ n, alistGet c.usageCount slotName = some n ∧
      alistGet (render (Value.str s) c).2.usageCount slotName = some (n + 1)) ∧
    ∀ m, m ≠ slotName →
      alistGet (render (Value.str s) c).2.usageCount m = alistGet c.usageCount m := by
  have hrender : render (Value.str s) c = (Except.ok v, c.recordUsage slotName) := by
    rw [render_str_eq]
    rw [hfull]
    dsimp only
    rw [clipGet_ok c slotName v hslot]
  rw [hrender]
  refine ⟨rfl, recordUsage_slots c slotName, recordUsage_bytes c slotName, ?_, ?_⟩
  · have hmem : slotName ∈ alistKeys c.slots := alistGet_mem_keys _ _ _ hslot
    obtain ⟨n, hn⟩ := Option.isSome_iff_exists.mp (hwf slotName hmem)
    refine ⟨n, hn, ?_⟩
    rw [recordUsage_usage]
    simp [hn]
  · intro m hm
    rw [recordUsage_usage]
    simp [hm]

/-- C1 witness: slot `m` holds a mapping; rendering `" (ws){{m}}(ws) "`
returns that very mapping. -/
theorem C1_full_placeholder_type_preserving_witness :
    (render (Value.str " \x7b\x7bm\x7d\x7d ")
        (ClipboardState.init.set "m" (Value.dict [("k", Value.int 1)]))).1 =
      Except.ok (Value.dict [("k", Value.int 1)]) ∧
    alistGet (render (Value.str " \x7b\x7bm\x7d\x7d ")
        (ClipboardState.init.set "m" (Value.dict [("k", Value.int 1)]))).2.usageCount "m" =
      some 1 :=
  ⟨(C1_full_placeholder_type_preserving
      (ClipboardState.init.set "m" (Value.dict [("k", Value.int 1)]))
      " \x7b\x7bm\x7d\x7d " "m" (Value.dict [("k", Value.int 1)])
      (by decide) rfl rfl).1,
   by
    obtain ⟨n, hn, hn2⟩ := (C1_full_placeholder_type_preserving
      (ClipboardState.init.set "m" (Value.dict [("k", Value.int 1)]))
      " \x7b\x7bm\x7d\x7d " "m" (Value.dict [("k", Value.int 1)])
      (by decide) rfl rfl).2.2.2.1
    have : n = 0 := by
      have h0 : alistGet (ClipboardState.init.set "m"
          (Value.dict [("k", Value.int 1)])).usageCount "m" = some 0 := rfl
      rw [h0] at hn
      exact (Option.some.injEq _ _).mp hn.symm
    rw [this] at hn2
    exact hn2⟩

/-- C10 (confirmed): when a render fails with `NotFound` on an unknown
slot, the clipboard's slot set, slot values and byte bookkeeping are left
unchanged — but rendering is not atomic for usage accounting: slots whose
placeholders resolved earlier in the same render keep their incremented
`useCount`; concretely, rendering `"(ph a) (ph missing)"` with only slot
`a` present aborts with the `KeyError` for `missing` while slot `a`'s
usage count has already risen to 1. -/
theorem C10_render_failure :
    (∀ (t : Value) (c : ClipboardState) (e : PyErr),
      (render t c).1 = Except.error e →
      (render t c).2.slots = c.slots ∧
      (render t c).2.bytesStored = c.bytesStored) ∧
    ((render (Value.str "\x7b\x7ba\x7d\x7d \x7b\x7bmissing\x7d\x7d")
        (ClipboardState.init.set "a" (Value.int 1))).1 =
      Except.error (PyErr.keyError
        "Clipboard slot \x27missing\x27 not found. Available: [\x27a\x27]") ∧
     alistGet (render (Value.str "\x7b\x7ba\x7d\x7d \x7b\x7bmissing\x7d\x7d")
        (ClipboardState.init.set "a" (Value.int 1))).2.usageCount "a" = some 1) :=
  ⟨fun t c _ _ => render_pres t c, rfl, rfl⟩

/-- C10 witness: a failing render of a plain interpolation template
leaves the (empty) slot set unchanged. -/
theorem C10_render_failure_witness :
    (render (Value.str "\x7b\x7bmissing\x7d\x7d x") ClipboardState.init).2.slots = [] :=
  (C10_render_failure.1 (Value.str "\x7b\x7bmissing\x7d\x7d x") ClipboardState.init
    (PyErr.keyError "Clipboard slot \x27missing\x27 not found. Available: []") rfl).1

/-! ### C3: the interpolation scan against its specification -/

theorem interpSpecF_succ (f : String → Option Value) (fuel : Nat) (cs : List Char) :
    interpSpecF f (fuel + 1) cs =
      match matchPH cs with
      | some (slotName, rest) =>
        (pyStr ((f slotName).getD Value.none)).data ++ interpSpecF f fuel rest
      | Option.none =>
        match cs with
        | [] => []
        | ch :: rest => ch :: interpSpecF f fuel rest := rfl

theorem occCountF_succ (slotName : String) (fuel : Nat) (cs : List Char) :
    occCountF slotName (fuel + 1) cs =
      match matchPH cs with
      | some (slotName2, rest) =>
        (if slotName2 = slotName then 1 else 0) + occCountF slotName fuel rest
      | Option.none =>
        match cs with
        | [] => 0
        | _ :: rest => occCountF slotName fuel rest := rfl

theorem phIdsF_succ (fuel : Nat) (cs : List Char) :
    phIdsF (fuel + 1) cs =
      match matchPH cs with
      | some (slotName, rest) => slotName :: phIdsF fuel rest
      | Option.none =>
        match cs with
        | [] => []
        | _ :: rest => phIdsF fuel rest := rfl

/-- The interpolation scan agrees with the pure specification function
and increments each slot's usage count once per placeholder occurrence,
provided every referenced slot exists. -/
theorem interpGoF_ok : ∀ (fuel : Nat) (c : ClipboardState) (cs : List Char),
    c.WF →
    (∀ slotName ∈ phIdsF fuel cs, (alistGet c.slots slotName).isSome = true) →
    (interpGoF fuel c cs).1 =
      Except.ok (interpSpecF (fun slotName => alistGet c.slots slotName) fuel cs) ∧
    ∀ m, alistGet (interpGoF fuel c cs).2.usageCount m =
      (alistGet c.usageCount m).map (· + occCountF m fuel cs) := by
  intro fuel
  induction fuel with
  | zero =>
    intro c cs _ _
    refine ⟨rfl, fun m => ?_⟩
    show alistGet c.usageCount m = (alistGet c.usageCount m).map (· + 0)
    cases alistGet c.usageCount m <;> simp
  | succ n ih =>
    intro c cs hwf hres
    rw [interpGoF_succ]
    cases hm : matchPH cs with
    | some pr =>
      obtain ⟨slotName, rest⟩ := pr
      dsimp only
      have hids : phIdsF (n + 1) cs = slotName :: phIdsF n rest := by
        rw [phIdsF_succ, hm]
      have hslotSome : (alistGet c.slots slotName).isSome = true := by
        apply hres
        rw [hids]
        exact List.mem_cons_self _ _
      obtain ⟨v, hv⟩ := Option.isSome_iff_exists.mp hslotSome
      rw [clipGet_ok c slotName v hv]
      dsimp only
      have hwf2 : (c.recordUsage slotName).WF := recordUsage_WF c slotName hwf
      have hslots2 : (c.recordUsage slotName).slots = c.slots :=
        recordUsage_slots c slotName
      have hres2 : ∀ slotName2 ∈ phIdsF n rest,
          (alistGet (c.recordUsage slotName).slots slotName2).isSome = true := by
        intro slotName2 hid
        rw [hslots2]
        exact hres slotName2 (by rw [hids]; exact List.mem_cons_of_mem _ hid)
      have hih := ih (c.recordUsage slotName) rest hwf2 hres2
      cases hrec : interpGoF n (c.recordUsage slotName) rest with
      | mk r c3 =>
        rw [hrec] at hih
        obtain ⟨h1, h2⟩ := hih
        dsimp only at h1 h2
        subst h1
        dsimp only
        constructor
        · rw [interpSpecF_succ, hm]
          dsimp only
          rw [hslots2, hv]
          rfl
        · intro m
          rw [occCountF_succ, hm]
          dsimp only
          rw [h2 m, recordUsage_usage]
          by_cases hm2 : m = slotName
          · rw [if_pos hm2, if_pos hm2.symm]
            cases alistGet c.usageCount m with
            | none => rfl
            | some x =>
              show some ((x + 1) + occCountF m n rest) =
                some (x + (1 + occCountF m n rest))
              rw [Nat.add_assoc]
          · rw [if_neg hm2, if_neg (fun h => hm2 h.symm)]
            cases alistGet c.usageCount m with
            | none => rfl
            | some x => simp
    | none =>
      dsimp only
      cases cs with
      | nil =>
        constructor
        · rw [interpSpecF_succ, hm]
        · intro m
          rw [occCountF_succ, hm]
          dsimp only
          cases alistGet c.usageCount m <;> simp
      | cons ch rest =>
        dsimp only
        have hres2 : ∀ slotName ∈ phIdsF n rest,
            (alistGet c.slots slotName).isSome = true := by
          intro slotName hid
          apply hres
          rw [phIdsF_succ, hm]
          exact hid
        have hih := ih c rest hwf hres2
        cases hrec : interpGoF n c rest with
        | mk r c3 =>
          rw [hrec] at hih
          obtain ⟨h1, h2⟩ := hih
          dsimp only at h1 h2
          subst h1
          dsimp only
          constructor
          · rw [interpSpecF_succ, hm]
          · intro m
            rw [occCountF_succ, hm]
            dsimp only
            exact h2 m

/-- C3 (confirmed): a template string that is not solely one placeholder
renders by left-to-right string interpolation — each placeholder
occurrence replaced with the named slot's value coerced to its textual
form and all non-placeholder text kept, per the specification function
`interpSpec` — and each slot's `useCount` rises by exactly its number of
occurrences (duplicates counted), provided every referenced slot exists;
slot values and byte bookkeeping are untouched. -/
theorem C3_string_interpolation (c : ClipboardState) (s : String)
    (hwf : c.WF)
    (hnotfull : fullPlaceholder (pyStrip s) = Option.none)
    (hres : ∀ slotName ∈ phIds s, (alistGet c.slots slotName).isSome = true) :
    (render (Value.str s) c).1 =
      Except.ok (Value.str (interpSpec (fun slotName => alistGet c.slots slotName) s)) ∧
    (render (Value.str s) c).2.slots = c.slots ∧
    (render (Value.str s) c).2.bytesStored = c.bytesStored ∧
    ∀ m, alistGet (render (Value.str s) c).2.usageCount m =
      (alistGet c.usageCount m).map (· + occCount m s) := by
  have hmain := interpGoF_ok s.data.length c s.data hwf hres
  have hpres := interpGoF_pres s.data.length c s.data
  rw [render_str_eq, hnotfull]
  dsimp only
  unfold interpolate
  cases hi : interpGoF s.data.length c s.data with
  | mk r c2 =>
    rw [hi] at hmain hpres
    obtain ⟨h1, h2⟩ := hmain
    dsimp only at h1 h2
    subst h1
    dsimp only
    exact ⟨rfl, hpres.1, hpres.2, h2⟩

/-- C3 witness: slot `data` holds integer `42`; rendering `"n=(ph data)"`
yields the string `"n=42"` and bumps `data`'s usage count to 1. -/
theorem C3_string_interpolation_witness :
    (render (Value.str "n=\x7b\x7bdata\x7d\x7d")
        (ClipboardState.init.set "data" (Value.int 42))).1 =
      Except.ok (Value.str "n=42") ∧
    alistGet (render (Value.str "n=\x7b\x7bdata\x7d\x7d")
        (ClipboardState.init.set "data" (Value.int 42))).2.usageCount "data" =
      some 1 :=
  ⟨(C3_string_interpolation (ClipboardState.init.set "data" (Value.int 42))
      "n=\x7b\x7bdata\x7d\x7d" (by decide) rfl (by decide)).1,
   (C3_string_interpolation (ClipboardState.init.set "data" (Value.int 42))
      "n=\x7b\x7bdata\x7d\x7d" (by decide) rfl (by decide)).2.2.2 "data"⟩

/-! ### C2: reference resolution in the result store -/

theorem store_byTool (st : ToolResultStore) (n m : String) (v : Value) :
    alistGet ((st.store n v).1).byTool m =
      if m = n then some ((alistGet st.byTool n).getD [] ++ [⟨n, v⟩])
      else alistGet st.byTool m := by
  by_cases h : m = n
  · subst h
    simp [ToolResultStore.store, alistGet_set_self]
  · simp [ToolResultStore.store, alistGet_set_ne _ _ _ _ h, h]

theorem runStores_cons (st : ToolResultStore) (p : String × Value)
    (ops : List (String × Value)) :
    runStores st (p :: ops) = runStores ((st.store p.1 p.2).1) ops := rfl

theorem entriesFor_cons (n : String) (p : String × Value) (ops : List (String × Value)) :
    entriesFor n (p :: ops) =
      (if p.1 = n then [(⟨p.1, p.2⟩ : Entry)] else []) ++ entriesFor n ops := by
  unfold entriesFor
  by_cases h : p.1 = n <;> simp [List.filter_cons, h]

theorem runStores_byTool (ops : List (String × Value)) :
    ∀ (st : ToolResultStore) (m : String),
    (alistGet (runStores st ops).byTool m).getD [] =
      (alistGet st.byTool m).getD [] ++ entriesFor m ops ∧
    (alistGet (runStores st ops).byTool m).isSome =
      ((alistGet st.byTool m).isSome || !(entriesFor m ops).isEmpty) := by
  induction ops with
  | nil =>
    intro st m
    constructor
    · show (alistGet st.byTool m).getD [] = (alistGet st.byTool m).getD [] ++ entriesFor m []
      simp [entriesFor]
    · show (alistGet st.byTool m).isSome =
        ((alistGet st.byTool m).isSome || !(entriesFor m []).isEmpty)
      simp [entriesFor]
  | cons p ops ih =>
    intro st m
    rw [runStores_cons]
    have h := ih ((st.store p.1 p.2).1) m
    rw [entriesFor_cons]
    constructor
    · rw [h.1, store_byTool]
      by_cases hm : m = p.1
      · rw [if_pos hm, hm]
        simp [List.append_assoc]
      · rw [if_neg hm, if_neg (fun hh => hm hh.symm)]
        simp
    · rw [h.2, store_byTool]
      by_cases hm : m = p.1
      · rw [if_pos hm, hm]
        simp
      · rw [if_neg hm, if_neg (fun hh => hm hh.symm)]
        simp

theorem runStores_last : ∀ (ops : List (String × Value)) (st : ToolResultStore),
    (runStores st ops).last =
      match ops.getLast? with
      | some p => some ⟨p.1, p.2⟩
      | Option.none => st.last
  | [], _ => rfl
  | [_], _ => rfl
  | p :: q :: ops, st => by
    rw [runStores_cons, runStores_last (q :: ops) ((st.store p.1 p.2).1),
      List.getLast?_cons_cons]
    cases hL : (q :: ops).getLast? with
    | some r => rfl
    | none => simp at hL

theorem runStores_init_byTool (ops : List (String × Value)) (m : String) :
    alistGet (runStores ToolResultStore.init ops).byTool m =
      if (entriesFor m ops).isEmpty then Option.none
      else some (entriesFor m ops) := by
  have h := runStores_byTool ops ToolResultStore.init m
  have hinit : alistGet ToolResultStore.init.byTool m = Option.none := rfl
  rw [hinit] at h
  cases hA : alistGet (runStores ToolResultStore.init ops).byTool m with
  | none =>
    rw [hA] at h
    have h2 := h.2
    simp at h2
    rw [h2]
    rfl
  | some l =>
    rw [hA] at h
    have h1 := h.1
    have h2 := h.2
    simp at h1 h2
    rw [if_neg (fun hc => h2 (by simpa using hc)), h1]

theorem rsplit1_cons (c a : Char) (rest : List Char) :
    rsplit1 c (a :: rest) =
      match rsplit1 c rest with
      | some (pre, post) => some (a :: pre, post)
      | Option.none => if a = c then some ([], rest) else Option.none := rfl

theorem rsplit1_none (c : Char) : ∀ (l : List Char), c ∉ l → rsplit1 c l = Option.none
  | [], _ => rfl
  | a :: rest, h => by
    rw [rsplit1_cons, rsplit1_none c rest (fun hh => h (List.mem_cons_of_mem _ hh))]
    have ha : ¬ a = c := fun hh => h (hh ▸ List.mem_cons_self _ _)
    simp [ha]

theorem rsplit1_append (c : Char) (pre post : List Char) (h : c ∉ post) :
    rsplit1 c (pre ++ c :: post) = some (pre, post) := by
  induction pre with
  | nil =>
    rw [List.nil_append, rsplit1_cons, rsplit1_none c post h]
    simp
  | cons a pre ih =>
    rw [List.cons_append, rsplit1_cons, ih]

theorem digit_no_colon (ds : String) (h : pyIsDigitStr ds = true) : ':' ∉ ds.data := by
  intro hin
  unfold pyIsDigitStr at h
  rw [Bool.and_eq_true] at h
  have hd := List.all_eq_true.mp h.2 _ hin
  exact absurd hd (by decide)

theorem data_append3 (name ds : String) :
    (name ++ ":" ++ ds).data = name.data ++ ':' :: ds.data := by
  rw [String.data_append, String.data_append]
  simp [show (":" : String).data = [':'] from rfl]

theorem ne_last_of_colon (source : String) (h : ':' ∈ source.data) :
    source ≠ "last" := by
  intro hs
  subst hs
  exact absurd h (by decide)

theorem get_parsed (st : ToolResultStore) (name ds : String)
    (hds : pyIsDigitStr ds = true) :
    st.get (name ++ ":" ++ ds) =
      st.lookupIdx name (Int.ofNat (parseDigits ds)) := by
  unfold ToolResultStore.get
  have hcol : ':' ∈ (name ++ ":" ++ ds).data := by
    rw [data_append3]
    simp
  rw [if_neg (ne_last_of_colon _ hcol), data_append3,
    rsplit1_append ':' name.data ds.data (digit_no_colon ds hds)]
  dsimp only
  rw [show String.mk name.data = name from rfl, show String.mk ds.data = ds from rfl,
    if_pos hds]

theorem get_bare (st : ToolResultStore) (name : String)
    (hn : ':' ∉ name.data) (hl : name ≠ "last") :
    st.get name = st.lookupIdx name (-1) := by
  unfold ToolResultStore.get
  rw [if_neg hl, rsplit1_none ':' name.data hn]

theorem pyListGet_nonneg (l : List Entry) (i : Nat) :
    pyListGet l (Int.ofNat i) = l.get? i := by
  unfold pyListGet
  rw [if_pos (show (0 : Int) ≤ Int.ofNat i from Int.ofNat_nonneg i)]
  rfl

theorem pyListGet_neg_one (l : List Entry) (h : l ≠ []) :
    pyListGet l (-1) = l.getLast? := by
  unfold pyListGet
  rw [if_neg (by decide)]
  have hlen : 1 ≤ l.length := List.length_pos.mpr h
  rw [if_pos (by omega)]
  rw [show ((-(-1 : Int)).toNat) = 1 from rfl]
  exact (List.getLast?_eq_get? l).symm

/-- C2 (corrected): `resolve("last")` always returns the most recently
stored entry and fails with `NotFound` before any store; for a toolName
with `k` stored results, `resolve("toolName:i")` (any digit string
denoting `i < k`) returns the i-th entry in append order and
`resolve("toolName:k")` fails with `NotFound`; the bare reference
`resolve("toolName")` returns the most recent entry stored under that
name PROVIDED the name contains no colon and is not the reserved word
`last` — a colon-containing name is itself parsed as an indexed or
malformed reference, and `last` is intercepted by the global pointer. -/
theorem C2_resolve_semantics :
    (ToolResultStore.init.get "last" =
      Except.error (PyErr.keyError "No tool results stored yet")) ∧
    (∀ (ops : List (String × Value)) (p : String × Value),
      ops.getLast? = some p →
      (runStores ToolResultStore.init ops).get "last" = Except.ok ⟨p.1, p.2⟩) ∧
    (∀ (ops : List (String × Value)) (name ds : String) (i : Nat) (e : Entry),
      pyIsDigitStr ds = true → parseDigits ds = i →
      (entriesFor name ops).get? i = some e →
      (runStores ToolResultStore.init ops).get (name ++ ":" ++ ds) = Except.ok e) ∧
    (∀ (ops : List (String × Value)) (name ds : String),
      pyIsDigitStr ds = true → parseDigits ds = (entriesFor name ops).length →
      ∃ msg, (runStores ToolResultStore.init ops).get (name ++ ":" ++ ds) =
        Except.error (PyErr.keyError msg)) ∧
    (∀ (ops : List (String × Value)) (name : String) (e : Entry),
      ':' ∉ name.data → name ≠ "last" →
      (entriesFor name ops).getLast? = some e →
      (runStores ToolResultStore.init ops).get name = Except.ok e) := by
  refine ⟨rfl, ?_, ?_, ?_, ?_⟩
  · intro ops p hp
    unfold ToolResultStore.get
    rw [if_pos rfl, runStores_last ops ToolResultStore.init, hp]
  · intro ops name ds i e hds hparse hget
    rw [get_parsed _ _ _ hds, hparse]
    unfold ToolResultStore.lookupIdx
    rw [runStores_init_byTool]
    have hne : (entriesFor name ops).isEmpty = false := by
      cases hE : entriesFor name ops with
      | nil => rw [hE] at hget; simp at hget
      | cons a l => rfl
    rw [hne]
    simp only [Bool.false_eq_true, if_false]
    rw [pyListGet_nonneg, hget]
  · intro ops name ds hds hparse
    rw [get_parsed _ _ _ hds, hparse]
    unfold ToolResultStore.lookupIdx
    rw [runStores_init_byTool]
    by_cases hE : (entriesFor name ops).isEmpty
    · rw [if_pos hE]
      exact ⟨_, rfl⟩
    · rw [if_neg hE]
      dsimp only
      rw [pyListGet_nonneg, List.get?_eq_none.mpr (le_refl _)]
      exact ⟨_, rfl⟩
  · intro ops name e hn hl hlast
    rw [get_bare _ _ hn hl]
    unfold ToolResultStore.lookupIdx
    rw [runStores_init_byTool]
    have hne : (entriesFor name ops).isEmpty = false := by
      cases hE : entriesFor name ops with
      | nil => rw [hE] at hlast; simp at hlast
      | cons a l => rfl
    rw [hne]
    simp only [Bool.false_eq_true, if_false]
    rw [pyListGet_neg_one _ (by
      intro hnil
      rw [hnil] at hne
      simp at hne), hlast]

/-- C2 witness: two results stored under `read_file`; `read_file:0` is
the first, bare `read_file` the second, `last` the second. -/
theorem C2_resolve_semantics_witness :
    (runStores ToolResultStore.init
        [("read_file", Value.str "one"), ("read_file", Value.str "two")]).get
      "read_file:0" = Except.ok ⟨"read_file", Value.str "one"⟩ ∧
    (runStores ToolResultStore.init
        [("read_file", Value.str "one"), ("read_file", Value.str "two")]).get
      "read_file" = Except.ok ⟨"read_file", Value.str "two"⟩ ∧
    (runStores ToolResultStore.init
        [("read_file", Value.str "one"), ("read_file", Value.str "two")]).get
      "last" = Except.ok ⟨"read_file", Value.str "two"⟩ :=
  ⟨C2_resolve_semantics.2.2.1
      [("read_file", Value.str "one"), ("read_file", Value.str "two")]
      "read_file" "0" 0 ⟨"read_file", Value.str "one"⟩ (by decide) rfl rfl,
   C2_resolve_semantics.2.2.2.2
      [("read_file", Value.str "one"), ("read_file", Value.str "two")]
      "read_file" ⟨"read_file", Value.str "two"⟩ (by decide) (by decide) rfl,
   C2_resolve_semantics.2.1
      [("read_file", Value.str "one"), ("read_file", Value.str "two")]
      ("read_file", Value.str "two") rfl⟩

/-- C2 counterexample: store one result under the tool name `t:0`; the
bare reference `resolve("t:0")` does not return that entry — the name is
parsed at its colon as tool `t`, index `0`, and resolution fails with
`NotFound` for `t`. -/
theorem C2_counterexample :
    ((ToolResultStore.init.store "t:0" (Value.str "v")).1).get "t:0" =
      Except.error (PyErr.keyError
        "No results for tool \x27t\x27. Available: [\x27t:0\x27]") :=
  rfl

end AgentClipboard
